import Mathlib

/-!
Verification of the alert-evaluation engine and the row/offer filters of a
Discord price monitor.  The definitions below are a shallow embedding of
`price_monitor_serper.py`: Python floats are modelled as exact rationals,
Python dictionaries as structures, and the Python exception raised by a
zero division as the `Except.error` branch of an `Except Unit` result.
-/

/-- One shopping offer, as assembled by `search_google_shopping_serper`
(lines 185-190 of the source): retailer, numeric price, link, title. -/
structure Offer where
  retailer : String
  price : ℚ
  link : String
  title : String
deriving DecidableEq, Repr

/-- One entry of `self.price_history` (lines 249-252): the lowest price ever
recorded for the product and the type of the last alert fired
(the empty string, or the string `range` or `drop`). -/
structure PHist where
  lowest : ℚ
  last_alert : String
deriving DecidableEq, Repr

/-- Configuration fields of a product row that `check_price_alerts` reads
(lines 225, 237): target band and drop threshold. -/
structure ProductConfig where
  price_min : ℚ
  price_max : ℚ
  drop_threshold : ℚ
deriving DecidableEq, Repr

/-- An alert dictionary as built at lines 227-232 (a `range` alert) or at
lines 238-245 (a `drop` alert).  The `drop` variant additionally carries
`previous_lowest` and `drop_percentage`. -/
inductive Alert where
  | rangeA (current_price : ℚ) (result : Offer) : Alert
  | dropA (current_price : ℚ) (result : Offer)
      (previous_lowest : ℚ) (drop_percentage : ℚ) : Alert
deriving DecidableEq, Repr

/-- The type field of an alert dictionary. -/
def Alert.type : Alert → String
  | .rangeA _ _ => "range"
  | .dropA _ _ _ _ => "drop"

instance exceptDecEq {ε α : Type} [DecidableEq ε] [DecidableEq α] :
    DecidableEq (Except ε α) := fun x y =>
  match x, y with
  | .error a, .error b =>
    if h : a = b then .isTrue (by rw [h])
    else .isFalse (by intro hc; cases hc; exact h rfl)
  | .ok a, .ok b =>
    if h : a = b then .isTrue (by rw [h])
    else .isFalse (by intro hc; cases hc; exact h rfl)
  | .error _, .ok _ => .isFalse (by intro hc; cases hc)
  | .ok _, .error _ => .isFalse (by intro hc; cases hc)

/-- Python float division: raises `ZeroDivisionError` on a zero divisor
(modelled as `Except.error ()`), otherwise exact division. -/
def pyDiv (a b : ℚ) : Except Unit ℚ :=
  if b = 0 then .error () else .ok (a / b)

/-- Model of `min(current_results, key=lambda x: x['price'])` at line 220:
scan the list keeping the current best, replacing it only on a strictly
smaller price, so the first offer attaining the minimum price is returned. -/
def minByPrice (best : Offer) : List Offer → Offer
  | [] => best
  | o :: rest => minByPrice (if o.price < best.price then o else best) rest

/-- Lines 225-232: the range rule.  Emits a `range` alert when the current
price lies in the closed target band and the last alert type is not
the string `range`. -/
def rangeAlerts (product : ProductConfig) (last_alert_type : String)
    (current_price : ℚ) (lowest_result : Offer) : List Alert :=
  if product.price_min ≤ current_price ∧ current_price ≤ product.price_max ∧
      last_alert_type ≠ "range"
  then [Alert.rangeA current_price lowest_result] else []

/-- Lines 234-245: the drop rule.  Guarded by `lowest_price < 999999`; inside
the guard the drop percentage `(lowest_price - current_price) / lowest_price
* 100` is computed with Python division (which raises on a zero
`lowest_price`), and a `drop` alert is emitted when the percentage reaches
the threshold and the last alert type is not the string `drop`. -/
def dropAlerts (product : ProductConfig) (last_alert_type : String)
    (lowest_price current_price : ℚ) (lowest_result : Offer) :
    Except Unit (List Alert) :=
  if lowest_price < 999999 then
    (pyDiv (lowest_price - current_price) lowest_price).map (fun q =>
      if q * 100 ≥ product.drop_threshold ∧ last_alert_type ≠ "drop"
      then [Alert.dropA current_price lowest_result lowest_price (q * 100)]
      else [])
  else .ok []

/-- Lines 247-258: the `price_history` update.  A missing entry is created
with the current price and an empty last-alert type; an existing entry's
lowest is lowered when beaten; if any alert fired this cycle the entry's
`last_alert` is set to the type of the first alert in the list. -/
def updateHistory (hist : Option PHist) (current_price : ℚ)
    (alerts : List Alert) : PHist :=
  let entry : PHist :=
    match hist with
    | none => { lowest := current_price, last_alert := "" }
    | some h =>
        { h with lowest := if current_price < h.lowest then current_price
                           else h.lowest }
  match alerts with
  | [] => entry
  | a :: _ => { entry with last_alert := a.type }

/-- Model of `check_price_alerts` (lines 215-260).  Argument `hist` is the
product's `price_history` entry: `none` on the very first evaluation, in
which case the product record carries the sentinel `lowest_price = 999999`
and an empty `last_alert_type`, exactly as `read_google_sheet` lines 96-102
set them.  Empty offers short-circuit with no alerts and an untouched
history (lines 217-218).  Returning the empty alert list models the Python
`return None` of line 260, and `Except.error ()` models the
`ZeroDivisionError` escaping the function before any history update. -/
def check_price_alerts (product : ProductConfig) (hist : Option PHist)
    (offers : List Offer) : Except Unit (List Alert × Option PHist) :=
  match offers with
  | [] => .ok ([], hist)
  | o :: rest =>
    let lowest_result := minByPrice o rest
    let current_price := lowest_result.price
    let lowest_price : ℚ :=
      match hist with
      | none => 999999
      | some h => h.lowest
    let last_alert_type : String :=
      match hist with
      | none => ""
      | some h => h.last_alert
    match dropAlerts product last_alert_type lowest_price current_price
        lowest_result with
    | .error e => .error e
    | .ok ds =>
      let alerts :=
        rangeAlerts product last_alert_type current_price lowest_result ++ ds
      .ok (alerts, some (updateHistory hist current_price alerts))

/-- The minimum offer price of a nonempty batch, encoded head-and-tail. -/
def batchMin (b : Offer × List Offer) : ℚ := (minByPrice b.1 b.2).price

/-- Repeated evaluation cycles for one product, as `run_check` performs them:
lines 372-375 call `check_price_alerts` only on a nonempty result batch, and
each next cycle re-reads the state the previous one stored in
`price_history` (lines 96-102).  The result collects the alert lists emitted
before any error, together with the final history entry (or the error that
aborted the sequence). -/
def evalRun (product : ProductConfig) (hist : Option PHist) :
    List (Offer × List Offer) → List (List Alert) × Except Unit (Option PHist)
  | [] => ([], .ok hist)
  | b :: bs =>
    match check_price_alerts product hist (b.1 :: b.2) with
    | .error e => ([], .error e)
    | .ok (as, h) =>
      let r := evalRun product h bs
      (as :: r.1, r.2)

/-- Characters with leading and trailing whitespace removed, the model of
the Python string method `strip()`. -/
def stripChars (cs : List Char) : List Char :=
  ((cs.dropWhile Char.isWhitespace).reverse.dropWhile
    Char.isWhitespace).reverse

/-- Model of the Python string method `strip()`. -/
def pyStrip (s : String) : String := ⟨stripChars s.data⟩

/-- Model of the Python string method `upper()`. -/
def pyUpper (s : String) : String := ⟨s.data.map Char.toUpper⟩

/-- Model of the Python string method `lower()`. -/
def pyLower (s : String) : String := ⟨s.data.map Char.toLower⟩

/-- Value of a digit list, most significant first. -/
def digitsVal (cs : List Char) : ℕ :=
  cs.foldl (fun n c => 10 * n + (c.toNat - 48)) 0

/-- Parser for an unsigned decimal literal (an optionally dotted digit
string), the fragment of Python float-string syntax that spreadsheet cells
use; any other character content yields `none`. -/
def parseDecimal (cs : List Char) : Option ℚ :=
  let intPart := cs.takeWhile Char.isDigit
  let rest := cs.dropWhile Char.isDigit
  match rest with
  | [] => if intPart.isEmpty then none else some (digitsVal intPart : ℚ)
  | c :: frac =>
    if c = '.' then
      if frac.all Char.isDigit && !(intPart.isEmpty && frac.isEmpty) then
        some ((digitsVal intPart : ℚ) + (digitsVal frac : ℚ) / (10 : ℚ) ^ frac.length)
      else none
    else none

/-- Model of the Python builtin `float(...)` applied to a string, as used at
lines 82-84: surrounding whitespace is ignored, an optional sign precedes a
decimal literal, and a `none` result models the `ValueError` that makes the
`except` clause at line 106 drop the row. -/
def pyFloat (s : String) : Option ℚ :=
  match stripChars s.data with
  | [] => none
  | c :: rest =>
    if c = '+' then parseDecimal rest
    else if c = '-' then (parseDecimal rest).map Neg.neg
    else parseDecimal (c :: rest)

/-- Model of `row.get(key, '')` for the string-valued cells: an absent
column reads as the empty string. -/
def cellOrEmpty : Option String → String
  | none => ""
  | some s => s

/-- Model of `float(row.get(key, dflt) or dflt)` (lines 82-84): an absent or
empty cell takes the per-field default, a present nonempty cell must parse
as a float or the enclosing row is dropped. -/
def numField (cell : Option String) (dflt : ℚ) : Option ℚ :=
  match cell with
  | none => some dflt
  | some s => if s = "" then some dflt else pyFloat s

/-- One CSV row as `csv.DictReader` hands it to the loop at line 72: each
spreadsheet column is either absent from the row or holds a string cell.
The fields stand for the column headers used in the source: `Active`,
`Product Name`, `Search Query`, `Specifications`, `Target Price Min`,
`Target Price Max`, `Drop Alert %`. -/
structure Row where
  active : Option String
  product_name : Option String
  search_query : Option String
  specifications : Option String
  target_price_min : Option String
  target_price_max : Option String
  drop_alert_pct : Option String
deriving DecidableEq, Repr

/-- A product dictionary as built by `read_google_sheet` (lines 78-94),
without the history fields of lines 96-102, which the evaluator models
through its `Option PHist` argument. -/
structure SheetProduct where
  name : String
  search_query : String
  specifications : String
  price_min : ℚ
  price_max : ℚ
  drop_threshold : ℚ
  full_query : String
deriving DecidableEq, Repr

/-- The truthy markers accepted for the `Active` column (line 74). -/
def TRUTHY : List String := ["TRUE", "YES", "1", "Y"]

/-- Per-row processing of `read_google_sheet` (lines 72-108): skip rows
whose `Active` cell, stripped and uppercased, is not a truthy marker; parse
the three numeric cells (a parse failure raises `ValueError` and drops the
whole row, line 106); drop rows whose stripped name is empty; build the full
query from the search query (falling back to the name) plus the
specifications. -/
def processRow (row : Row) : Option SheetProduct :=
  if pyUpper (pyStrip (cellOrEmpty row.active)) ∈ TRUTHY then
    match numField row.target_price_min 0, numField row.target_price_max 999999,
        numField row.drop_alert_pct 25 with
    | some pmin, some pmax, some dthr =>
      let name := pyStrip (cellOrEmpty row.product_name)
      if name = "" then none
      else
        let sq := pyStrip (cellOrEmpty row.search_query)
        let specs := pyStrip (cellOrEmpty row.specifications)
        some { name := name, search_query := sq, specifications := specs,
               price_min := pmin, price_max := pmax, drop_threshold := dthr,
               full_query := (if sq = "" then name else sq) ++
                 (if specs = "" then "" else " " ++ specs) }
    | _, _, _ => none
  else none

/-- The row loop of `read_google_sheet`: the kept products, in row order. -/
def loadProducts (rows : List Row) : List SheetProduct :=
  rows.filterMap processRow

/-- Test for one list being an initial segment of another, on characters. -/
def leadsWith : List Char → List Char → Bool
  | [], _ => true
  | _ :: _, [] => false
  | a :: as, b :: bs => a == b && leadsWith as bs

/-- Model of the Python substring operator `nd in hay` on the character
lists of the two strings. -/
def hasSub (nd : List Char) : List Char → Bool
  | [] => nd.isEmpty
  | c :: rest => leadsWith nd (c :: rest) || hasSub nd rest

/-- The exclusion list of line 25. -/
def EXCLUDED_RETAILERS : List String := ["shein", "amazon", "ebay"]

/-- Lines 177-179: `any(excluded in retailer_lower for excluded in
EXCLUDED_RETAILERS)` where `retailer_lower = retailer.lower()`. -/
def isExcludedRetailer (retailer : String) : Bool :=
  EXCLUDED_RETAILERS.any (fun ex => hasSub ex.data (pyLower retailer).data)

/-- The retailer-exclusion step of the parse loop (line 180): an excluded
item is skipped by `continue`, every other parsed item is appended to
`results`. -/
def filterExcluded (results : List Offer) : List Offer :=
  results.filter (fun r => !(isExcludedRetailer r.retailer))

/-- Concrete config used by witnesses and counterexamples: the target band
100 to 150 with a 25 percent drop threshold. -/
def cfgA : ProductConfig :=
  { price_min := 100, price_max := 150, drop_threshold := 25 }

/-- Concrete offer at a given price, used by witnesses and counterexamples. -/
def offerAt (p : ℚ) : Offer :=
  { retailer := "Shop", price := p, link := "", title := "" }

/-- Concrete row whose `Target Price Min` cell is present, nonempty and
unparsable while its other numeric cells are absent. -/
def rowBad : Row :=
  { active := some "TRUE", product_name := some "Widget",
    search_query := none, specifications := none,
    target_price_min := some "abc", target_price_max := none,
    drop_alert_pct := none }

/-- Concrete row kept by the loader: truthy active flag, nonempty name, a
parsable minimum cell, an empty maximum cell and an absent drop cell. -/
def rowGood : Row :=
  { active := some "yes", product_name := some " Gadget ",
    search_query := none, specifications := none,
    target_price_min := some "50", target_price_max := some "",
    drop_alert_pct := none }

/-! Helper lemmas about the evaluation engine. -/

@[simp] theorem Alert.type_rangeA (p : ℚ) (r : Offer) :
    (Alert.rangeA p r).type = "range" := rfl

@[simp] theorem Alert.type_dropA (p : ℚ) (r : Offer) (pl dp : ℚ) :
    (Alert.dropA p r pl dp).type = "drop" := rfl

theorem dropAlerts_not_lt (product : ProductConfig) (la : String)
    (L p : ℚ) (res : Offer) (h : ¬ L < 999999) :
    dropAlerts product la L p res = .ok [] := by
  unfold dropAlerts
  rw [if_neg h]

theorem dropAlerts_ok_of_ne_zero (product : ProductConfig) (la : String)
    (L p : ℚ) (res : Offer) (hL : L ≠ 0) :
    ∃ ds, dropAlerts product la L p res = .ok ds := by
  unfold dropAlerts pyDiv
  by_cases h : L < 999999
  · rw [if_pos h, if_neg hL]
    exact ⟨_, rfl⟩
  · rw [if_neg h]
    exact ⟨[], rfl⟩

theorem dropAlerts_types (product : ProductConfig) (la : String)
    (L p : ℚ) (res : Offer) (ds : List Alert)
    (hok : dropAlerts product la L p res = .ok ds) :
    ∀ a ∈ ds, a.type = "drop" := by
  unfold dropAlerts pyDiv at hok
  by_cases h : L < 999999
  · rw [if_pos h] at hok
    by_cases h0 : L = 0
    · rw [if_pos h0] at hok
      exact absurd hok (by simp [Except.map])
    · rw [if_neg h0] at hok
      simp only [Except.map, Except.ok.injEq] at hok
      subst hok
      by_cases hc : ((L - p) / L) * 100 ≥ product.drop_threshold ∧ la ≠ "drop"
      · rw [if_pos hc]
        intro a ha
        simp only [List.mem_singleton] at ha
        subst ha
        rfl
      · rw [if_neg hc]
        intro a ha
        exact absurd ha (List.not_mem_nil a)
  · rw [if_neg h] at hok
    simp only [Except.ok.injEq] at hok
    subst hok
    intro a ha
    exact absurd ha (List.not_mem_nil a)

theorem rangeAlerts_types (product : ProductConfig) (la : String)
    (p : ℚ) (res : Offer) :
    ∀ a ∈ rangeAlerts product la p res, a.type = "range" := by
  unfold rangeAlerts
  by_cases hc : product.price_min ≤ p ∧ p ≤ product.price_max ∧ la ≠ "range"
  · rw [if_pos hc]
    intro a ha
    simp only [List.mem_singleton] at ha
    subst ha
    rfl
  · rw [if_neg hc]
    intro a ha
    exact absurd ha (List.not_mem_nil a)

theorem rangeAlerts_last_range (product : ProductConfig) (la : String)
    (p : ℚ) (res : Offer) (hla : la = "range") :
    rangeAlerts product la p res = [] := by
  unfold rangeAlerts
  rw [if_neg]
  intro hc
  exact hc.2.2 hla

theorem check_cons_some (product : ProductConfig) (h : PHist)
    (o : Offer) (rest : List Offer) :
    check_price_alerts product (some h) (o :: rest) =
      match dropAlerts product h.last_alert h.lowest
          (minByPrice o rest).price (minByPrice o rest) with
      | .error e => .error e
      | .ok ds =>
        .ok (rangeAlerts product h.last_alert (minByPrice o rest).price
              (minByPrice o rest) ++ ds,
          some (updateHistory (some h) (minByPrice o rest).price
            (rangeAlerts product h.last_alert (minByPrice o rest).price
              (minByPrice o rest) ++ ds))) := rfl

theorem check_cons_none (product : ProductConfig)
    (o : Offer) (rest : List Offer) :
    check_price_alerts product none (o :: rest) =
      match dropAlerts product "" 999999
          (minByPrice o rest).price (minByPrice o rest) with
      | .error e => .error e
      | .ok ds =>
        .ok (rangeAlerts product "" (minByPrice o rest).price
              (minByPrice o rest) ++ ds,
          some (updateHistory none (minByPrice o rest).price
            (rangeAlerts product "" (minByPrice o rest).price
              (minByPrice o rest) ++ ds))) := rfl

theorem ite_lt_eq_min (p L : ℚ) : (if p < L then p else L) = min L p := by
  rcases lt_or_le p L with h | h
  · rw [if_pos h, min_eq_right h.le]
  · rw [if_neg (not_lt.mpr h), min_eq_left h]

theorem updateHistory_none_lowest (p : ℚ) (as : List Alert) :
    (updateHistory none p as).lowest = p := by
  cases as <;> rfl

theorem updateHistory_some_lowest (h : PHist) (p : ℚ) (as : List Alert) :
    (updateHistory (some h) p as).lowest =
      if p < h.lowest then p else h.lowest := by
  cases as <;> rfl

theorem updateHistory_nil_alerts_some (h : PHist) (p : ℚ) :
    updateHistory (some h) p [] =
      { lowest := if p < h.lowest then p else h.lowest,
        last_alert := h.last_alert } := rfl

/-- Claim C1, counterexample: with a populated state whose recorded
`lowestPriceEver` is 0 and a nonempty offer batch, `check_price_alerts`
raises `ZeroDivisionError` (the guard `lowest_price < 999999` passes and the
drop-percentage division divides by the zero recorded lowest), so the
evaluation is not total over the domain the claim states. -/
theorem C1_counterexample :
    check_price_alerts cfgA (some { lowest := 0, last_alert := "" })
      [offerAt 5] = .error () := by
  decide

/-- Claim C1 (amended): the alert evaluation returns without error for every
config, every offer batch and every state whose recorded `lowestPriceEver`
is nonzero (in particular the sentinel first-run state); only a populated
state with a recorded lowest of exactly 0 can make the drop-percentage
division raise. -/
theorem C1_total_unless_zero_lowest (product : ProductConfig)
    (hist : Option PHist) (offers : List Offer)
    (hz : ∀ ph, hist = some ph → ph.lowest ≠ 0) :
    ∃ r, check_price_alerts product hist offers = .ok r := by
  match offers with
  | [] => exact ⟨([], hist), rfl⟩
  | o :: rest =>
    cases hist with
    | none =>
      rw [check_cons_none,
        dropAlerts_not_lt product ("") 999999 (minByPrice o rest).price
          (minByPrice o rest) (lt_irrefl 999999)]
      exact ⟨_, rfl⟩
    | some ph =>
      obtain ⟨ds, hds⟩ := dropAlerts_ok_of_ne_zero product ph.last_alert
        ph.lowest (minByPrice o rest).price (minByPrice o rest) (hz ph rfl)
      rw [check_cons_some, hds]
      exact ⟨_, rfl⟩

/-- Witness for the amended claim C1 at a concrete sentinel-state input. -/
theorem C1_total_witness :
    ∃ r, check_price_alerts cfgA none [offerAt 5] = .ok r :=
  C1_total_unless_zero_lowest cfgA none [offerAt 5]
    (fun _ hph => Option.noConfusion hph)

/-- Claim C4: on the very first evaluation of a product (no history entry,
so the sentinel 999999 is presented as the recorded lowest), no drop alert
is emitted, for every config and every nonempty offer batch. -/
theorem C4_no_drop_first_eval (product : ProductConfig) (o : Offer)
    (rest : List Offer) :
    ∃ as h2, check_price_alerts product none (o :: rest) = .ok (as, h2) ∧
      ∀ a ∈ as, a.type ≠ "drop" := by
  rw [check_cons_none,
    dropAlerts_not_lt product ("") 999999 (minByPrice o rest).price
      (minByPrice o rest) (lt_irrefl 999999)]
  refine ⟨_, _, rfl, ?_⟩
  intro a ha
  rw [List.append_nil] at ha
  rw [rangeAlerts_types product ("") (minByPrice o rest).price
    (minByPrice o rest) a ha]
  decide

/-- Witness for claim C4 at a concrete first-evaluation input. -/
theorem C4_witness :
    ∃ as h2, check_price_alerts cfgA none [offerAt 120] = .ok (as, h2) ∧
      ∀ a ∈ as, a.type ≠ "drop" :=
  C4_no_drop_first_eval cfgA (offerAt 120) []

/-- Claim C6: evaluating with an empty offer batch emits no alerts and
leaves the history entry (hence both `lowestPriceEver` and `lastAlertType`)
completely unchanged, for every config and state. -/
theorem C6_empty_offers_noop (product : ProductConfig) (hist : Option PHist) :
    check_price_alerts product hist [] = .ok ([], hist) := rfl

/-- Claim C7: with config 100-150 band and 25 threshold, state
lowest 120 and last alert type range, a batch whose minimum offer price is
80 yields exactly one drop alert carrying previous lowest 120 and drop
percentage (120-80)/120*100, and the updated state is lowest 80 with last
alert type drop. -/
theorem C7_scenario_C (o : Offer) (rest : List Offer)
    (hmin : (minByPrice o rest).price = 80) :
    check_price_alerts cfgA (some { lowest := 120, last_alert := "range" })
      (o :: rest) =
      .ok ([Alert.dropA 80 (minByPrice o rest) 120 ((120 - 80) / 120 * 100)],
        some { lowest := 80, last_alert := "drop" }) := by
  rw [check_cons_some]
  norm_num +decide [hmin, dropAlerts, rangeAlerts, updateHistory, pyDiv,
    cfgA, Except.map]

/-- Witness for claim C7 at a concrete single-offer batch. -/
theorem C7_witness :
    check_price_alerts cfgA (some { lowest := 120, last_alert := "range" })
      [offerAt 80] =
      .ok ([Alert.dropA 80 (minByPrice (offerAt 80) []) 120
            ((120 - 80) / 120 * 100)],
        some { lowest := 80, last_alert := "drop" }) :=
  C7_scenario_C (offerAt 80) [] rfl

/-- Claim C8: a first evaluation records the batch minimum as the lowest
even when it is at or above 999999, and from any state whose recorded
lowest is at or above 999999 no evaluation ever emits a drop alert,
whatever the config and prices: the guard treats such a recorded lowest as
absent history. -/
theorem C8_high_lowest_blocks_drop :
    (∀ (product : ProductConfig) (o : Offer) (rest : List Offer),
        999999 ≤ (minByPrice o rest).price →
        ∃ as h2, check_price_alerts product none (o :: rest) =
            .ok (as, some h2) ∧
          h2.lowest = (minByPrice o rest).price ∧ 999999 ≤ h2.lowest) ∧
    (∀ (product : ProductConfig) (h : PHist) (o : Offer) (rest : List Offer),
        999999 ≤ h.lowest →
        ∃ as h2, check_price_alerts product (some h) (o :: rest) =
            .ok (as, h2) ∧
          ∀ a ∈ as, a.type ≠ "drop") := by
  constructor
  · intro product o rest hge
    rw [check_cons_none,
      dropAlerts_not_lt product ("") 999999 (minByPrice o rest).price
        (minByPrice o rest) (lt_irrefl 999999)]
    refine ⟨_, _, rfl, ?_, ?_⟩
    · exact updateHistory_none_lowest (minByPrice o rest).price _
    · rw [updateHistory_none_lowest (minByPrice o rest).price _]
      exact hge
  · intro product h o rest hge
    rw [check_cons_some,
      dropAlerts_not_lt product h.last_alert h.lowest
        (minByPrice o rest).price (minByPrice o rest) (not_lt.mpr hge)]
    refine ⟨_, _, rfl, ?_⟩
    intro a ha
    rw [List.append_nil] at ha
    rw [rangeAlerts_types product h.last_alert (minByPrice o rest).price
      (minByPrice o rest) a ha]
    decide

/-- Witness for claim C8 at a concrete state recorded above the sentinel. -/
theorem C8_witness :
    (∃ as h2, check_price_alerts cfgA none [offerAt 1000000] =
        .ok (as, some h2) ∧
      h2.lowest = (minByPrice (offerAt 1000000) []).price ∧
        999999 ≤ h2.lowest) ∧
    (∃ as h2, check_price_alerts cfgA
        (some { lowest := 1000000, last_alert := "" }) [offerAt 50] =
        .ok (as, h2) ∧
      ∀ a ∈ as, a.type ≠ "drop") :=
  ⟨C8_high_lowest_blocks_drop.1 cfgA (offerAt 1000000) [] (by norm_num [minByPrice, offerAt]),
   C8_high_lowest_blocks_drop.2 cfgA { lowest := 1000000, last_alert := "" }
     (offerAt 50) [] (by norm_num)⟩

theorem check_cons_some_ok (product : ProductConfig) (h : PHist)
    (o : Offer) (rest : List Offer) (ds : List Alert)
    (hds : dropAlerts product h.last_alert h.lowest
        (minByPrice o rest).price (minByPrice o rest) = .ok ds) :
    check_price_alerts product (some h) (o :: rest) =
      .ok (rangeAlerts product h.last_alert (minByPrice o rest).price
            (minByPrice o rest) ++ ds,
        some (updateHistory (some h) (minByPrice o rest).price
          (rangeAlerts product h.last_alert (minByPrice o rest).price
            (minByPrice o rest) ++ ds))) := by
  rw [check_cons_some, hds]

theorem check_cons_some_err (product : ProductConfig) (h : PHist)
    (o : Offer) (rest : List Offer) (e : Unit)
    (hds : dropAlerts product h.last_alert h.lowest
        (minByPrice o rest).price (minByPrice o rest) = .error e) :
    check_price_alerts product (some h) (o :: rest) = .error e := by
  rw [check_cons_some, hds]

theorem check_cons_none_ok (product : ProductConfig)
    (o : Offer) (rest : List Offer) (ds : List Alert)
    (hds : dropAlerts product ("") 999999
        (minByPrice o rest).price (minByPrice o rest) = .ok ds) :
    check_price_alerts product none (o :: rest) =
      .ok (rangeAlerts product ("") (minByPrice o rest).price
            (minByPrice o rest) ++ ds,
        some (updateHistory none (minByPrice o rest).price
          (rangeAlerts product ("") (minByPrice o rest).price
            (minByPrice o rest) ++ ds))) := by
  rw [check_cons_none, hds]

theorem check_none_state (product : ProductConfig) (o : Offer)
    (rest : List Offer) :
    ∃ as la, check_price_alerts product none (o :: rest) =
      .ok (as, some { lowest := (minByPrice o rest).price,
                      last_alert := la }) := by
  rw [check_cons_none_ok product o rest []
    (dropAlerts_not_lt product ("") 999999 (minByPrice o rest).price
      (minByPrice o rest) (lt_irrefl 999999))]
  rcases hu : updateHistory none (minByPrice o rest).price
      (rangeAlerts product ("") (minByPrice o rest).price
        (minByPrice o rest) ++ []) with ⟨lw, la⟩
  have h1 : lw = (minByPrice o rest).price := by
    have h2 := updateHistory_none_lowest (minByPrice o rest).price
      (rangeAlerts product ("") (minByPrice o rest).price
        (minByPrice o rest) ++ [])
    rw [hu] at h2
    exact h2
  subst h1
  exact ⟨_, la, rfl⟩

theorem check_some_state (product : ProductConfig) (h : PHist)
    (o : Offer) (rest : List Offer) (h0 : h.lowest ≠ 0) :
    ∃ as la, check_price_alerts product (some h) (o :: rest) =
      .ok (as, some { lowest := min h.lowest (minByPrice o rest).price,
                      last_alert := la }) := by
  obtain ⟨ds, hds⟩ := dropAlerts_ok_of_ne_zero product h.last_alert h.lowest
    (minByPrice o rest).price (minByPrice o rest) h0
  rw [check_cons_some_ok product h o rest ds hds]
  rcases hu : updateHistory (some h) (minByPrice o rest).price
      (rangeAlerts product h.last_alert (minByPrice o rest).price
        (minByPrice o rest) ++ ds) with ⟨lw, la⟩
  have h1 : lw = min h.lowest (minByPrice o rest).price := by
    have h2 := updateHistory_some_lowest h (minByPrice o rest).price
      (rangeAlerts product h.last_alert (minByPrice o rest).price
        (minByPrice o rest) ++ ds)
    rw [hu, ite_lt_eq_min] at h2
    exact h2
  subst h1
  exact ⟨_, la, rfl⟩

theorem evalRun_lowest (product : ProductConfig)
    (bs : List (Offer × List Offer)) :
    ∀ (h : PHist), h.lowest ≠ 0 → (∀ b ∈ bs, batchMin b ≠ 0) →
      ∃ la, (evalRun product (some h) bs).2 =
        .ok (some { lowest := (bs.map batchMin).foldl min h.lowest,
                    last_alert := la }) := by
  induction bs with
  | nil =>
    intro h _ _
    exact ⟨h.last_alert, rfl⟩
  | cons b bs ih =>
    intro h h0 hbs
    obtain ⟨as, la, hc⟩ := check_some_state product h b.1 b.2 h0
    have hbm : (minByPrice b.1 b.2).price = batchMin b := rfl
    rw [hbm] at hc
    have hmn : (min h.lowest (batchMin b)) ≠ 0 := by
      rcases min_choice h.lowest (batchMin b) with hm | hm <;> rw [hm]
      · exact h0
      · exact hbs b (List.mem_cons_self b bs)
    obtain ⟨la2, hr⟩ := ih (⟨min h.lowest (batchMin b), la⟩ : PHist) hmn
      (fun b2 hb2 => hbs b2 (List.mem_cons_of_mem b hb2))
    refine ⟨la2, ?_⟩
    simp only [evalRun, hc, List.map_cons, List.foldl_cons]
    exact hr

/-- Claim C2, counterexample: a first evaluation whose minimum offer price
is 1000000 stores 1000000 as the recorded lowest, not
min(999999, 1000000) = 999999, so the stored value is not
min(sentinel-or-initial, p1, ..., pk) as the claim states. -/
theorem C2_counterexample :
    (evalRun cfgA none [((offerAt 1000000), [])]).2 =
      .ok (some { lowest := 1000000, last_alert := "" }) ∧
    ¬ ((1000000 : ℚ) = min 999999 1000000) := by
  constructor
  · decide
  · rw [min_eq_left (by norm_num : (999999 : ℚ) ≤ 1000000)]
    norm_num

/-- Claim C2 (amended): for any sequence of evaluations with nonempty offer
batches of nonzero per-cycle minimum prices p1, ..., pn starting from a
fresh product, after the whole sequence the stored lowest equals
min(p1, ..., pk) — the sentinel does not participate once a price has been
observed; instantiating the batch list at every prefix gives the value
after each k-th evaluation, and that value is non-increasing in k. -/
theorem C2_lowest_is_min_of_prices (product : ProductConfig)
    (b : Offer × List Offer) (bs : List (Offer × List Offer))
    (hne : ∀ x ∈ b :: bs, batchMin x ≠ 0) :
    ∃ la, (evalRun product none (b :: bs)).2 =
      .ok (some { lowest := (bs.map batchMin).foldl min (batchMin b),
                  last_alert := la }) := by
  obtain ⟨as, la, hc⟩ := check_none_state product b.1 b.2
  have hbm : (minByPrice b.1 b.2).price = batchMin b := rfl
  rw [hbm] at hc
  obtain ⟨la2, hr⟩ := evalRun_lowest product bs (⟨batchMin b, la⟩ : PHist)
    (hne b (List.mem_cons_self b bs))
    (fun x hx => hne x (List.mem_cons_of_mem b hx))
  refine ⟨la2, ?_⟩
  simp only [evalRun, hc]
  exact hr

/-- Witness for the amended claim C2 on a concrete two-cycle run. -/
theorem C2_witness :
    ∃ la, (evalRun cfgA none [((offerAt 120), []), ((offerAt 100), [])]).2 =
      .ok (some (⟨([((offerAt 100), ([] : List Offer))].map batchMin).foldl
        min (batchMin ((offerAt 120), [])), la⟩ : PHist)) :=
  C2_lowest_is_min_of_prices cfgA ((offerAt 120), [])
    [((offerAt 100), [])] (by decide)

/-- Claim C3: starting from any product state whose last alert type is the
string range, over any sequence of evaluations whose per-cycle minimum
prices stay inside the target band, as long as the last alert type is never
changed by an intervening different-type (drop) alert, no range alert is
emitted on any evaluation of the sequence (indeed every cycle emits no
alert at all). -/
theorem C3_range_debounce (product : ProductConfig)
    (bs : List (Offer × List Offer))
    (hin : ∀ b ∈ bs, product.price_min ≤ batchMin b ∧
      batchMin b ≤ product.price_max)
    (h : PHist) (hla : h.last_alert = "range")
    (hno : ∀ as ∈ (evalRun product (some h) bs).1, ∀ a ∈ as,
      a.type ≠ "drop") :
    ∀ as ∈ (evalRun product (some h) bs).1, as = [] := by
  revert hin hla hno
  induction bs generalizing h with
  | nil =>
    intro _ _ _ as has
    simp only [evalRun, List.not_mem_nil] at has
  | cons b bs ih =>
    intro hin hla hno as has
    rcases hd : dropAlerts product h.last_alert h.lowest
        (minByPrice b.1 b.2).price (minByPrice b.1 b.2) with e | ds
    · have hc := check_cons_some_err product h b.1 b.2 e hd
      simp only [evalRun, hc, List.not_mem_nil] at has
    · have hc0 := check_cons_some_ok product h b.1 b.2 ds hd
      rw [rangeAlerts_last_range product h.last_alert
          (minByPrice b.1 b.2).price (minByPrice b.1 b.2) hla,
        List.nil_append] at hc0
      have hfst : (evalRun product (some h) (b :: bs)).1 =
          ds :: (evalRun product
            (some (updateHistory (some h) (minByPrice b.1 b.2).price ds))
            bs).1 := by
        simp only [evalRun, hc0]
      have hdnil : ds = [] := by
        cases ds with
        | nil => rfl
        | cons a t =>
          have hmem : (a :: t) ∈ (evalRun product (some h) (b :: bs)).1 := by
            rw [hfst]
            exact List.mem_cons_self _ _
          exact absurd
            (dropAlerts_types product h.last_alert h.lowest
              (minByPrice b.1 b.2).price (minByPrice b.1 b.2) (a :: t) hd
              a (List.mem_cons_self a t))
            (hno (a :: t) hmem a (List.mem_cons_self a t))
      subst hdnil
      rw [hfst] at has
      rcases List.mem_cons.mp has with hh | ht
      · exact hh
      · have hla2 : (updateHistory (some h) (minByPrice b.1 b.2).price
            ([] : List Alert)).last_alert = "range" := by
          rw [updateHistory_nil_alerts_some]
          exact hla
        refine ih (updateHistory (some h) (minByPrice b.1 b.2).price
            ([] : List Alert))
          (fun b2 hb2 => hin b2 (List.mem_cons_of_mem b hb2)) hla2 ?_ as ht
        intro as2 has2 a2 ha2
        exact hno as2 (by rw [hfst]; exact List.mem_cons_of_mem _ has2) a2 ha2

/-- Witness for claim C3 on a concrete in-range repeated evaluation: the
single cycle emits the empty alert list. -/
theorem C3_witness :
    ([] : List Alert) ∈ (evalRun cfgA
        (some { lowest := 120, last_alert := "range" })
        [((offerAt 120), [])]).1 ∧
      ([] : List Alert) = [] := by
  have hm : ([] : List Alert) ∈ (evalRun cfgA
      (some { lowest := 120, last_alert := "range" })
      [((offerAt 120), [])]).1 := by
    norm_num +decide [evalRun, check_price_alerts, dropAlerts,
      rangeAlerts, updateHistory, pyDiv, minByPrice, cfgA, offerAt,
      Except.map]
  exact ⟨hm, C3_range_debounce cfgA [((offerAt 120), [])] (by decide)
    { lowest := 120, last_alert := "range" } rfl
    (by norm_num +decide [evalRun, check_price_alerts, dropAlerts,
      rangeAlerts, updateHistory, pyDiv, minByPrice, cfgA, offerAt,
      Except.map]) [] hm⟩

/-- Claim C5: when on one evaluation the range condition holds (minimum
price inside the band, last alert type not range) and the drop condition
holds (recorded lowest below the sentinel and nonzero so the percentage is
defined, percentage at or above the threshold, last alert type not drop),
the returned sequence is exactly the range alert followed by the drop
alert, and the updated state records last alert type range. -/
theorem C5_both_fire (product : ProductConfig) (h : PHist) (o : Offer)
    (rest : List Offer)
    (hL1 : h.lowest < 999999) (hL0 : h.lowest ≠ 0)
    (hla1 : h.last_alert ≠ "range") (hla2 : h.last_alert ≠ "drop")
    (hmin : product.price_min ≤ (minByPrice o rest).price)
    (hmax : (minByPrice o rest).price ≤ product.price_max)
    (hthr : (h.lowest - (minByPrice o rest).price) / h.lowest * 100 ≥
      product.drop_threshold) :
    check_price_alerts product (some h) (o :: rest) =
      .ok ([Alert.rangeA (minByPrice o rest).price (minByPrice o rest),
            Alert.dropA (minByPrice o rest).price (minByPrice o rest)
              h.lowest
              ((h.lowest - (minByPrice o rest).price) / h.lowest * 100)],
        some (⟨if (minByPrice o rest).price < h.lowest
                then (minByPrice o rest).price else h.lowest,
               "range"⟩ : PHist)) := by
  have hd : dropAlerts product h.last_alert h.lowest
      (minByPrice o rest).price (minByPrice o rest) =
      .ok [Alert.dropA (minByPrice o rest).price (minByPrice o rest)
        h.lowest
        ((h.lowest - (minByPrice o rest).price) / h.lowest * 100)] := by
    unfold dropAlerts pyDiv
    rw [if_pos hL1, if_neg hL0]
    simp only [Except.map]
    rw [if_pos ⟨hthr, hla2⟩]
  have hr : rangeAlerts product h.last_alert (minByPrice o rest).price
      (minByPrice o rest) =
      [Alert.rangeA (minByPrice o rest).price (minByPrice o rest)] := by
    unfold rangeAlerts
    rw [if_pos ⟨hmin, hmax, hla1⟩]
  rw [check_cons_some_ok product h o rest _ hd, hr]
  rfl

/-- Witness for claim C5 on a concrete simultaneous range-and-drop input. -/
theorem C5_witness :
    check_price_alerts cfgA (some { lowest := 200, last_alert := "" })
      [offerAt 120] =
      .ok ([Alert.rangeA 120 (offerAt 120),
            Alert.dropA 120 (offerAt 120) 200 40],
        some { lowest := 120, last_alert := "range" }) := by
  rw [C5_both_fire cfgA ⟨200, ""⟩ (offerAt 120) [] (by norm_num)
    (by norm_num) (by decide) (by decide)
    (by norm_num [minByPrice, offerAt, cfgA])
    (by norm_num [minByPrice, offerAt, cfgA])
    (by norm_num [minByPrice, offerAt, cfgA])]
  norm_num +decide [minByPrice, offerAt]

theorem leadsWith_iff (nd : List Char) :
    ∀ cs, leadsWith nd cs = true ↔ ∃ t, nd ++ t = cs := by
  induction nd with
  | nil =>
    intro cs
    simp [leadsWith]
  | cons a as ih =>
    intro cs
    cases cs with
    | nil => simp [leadsWith]
    | cons b bs =>
      simp only [leadsWith, Bool.and_eq_true, beq_iff_eq]
      constructor
      · rintro ⟨hab, h⟩
        obtain ⟨t, ht⟩ := (ih bs).mp h
        exact ⟨t, by rw [List.cons_append, hab, ht]⟩
      · rintro ⟨t, ht⟩
        rw [List.cons_append] at ht
        injection ht with h1 h2
        exact ⟨h1, (ih bs).mpr ⟨t, h2⟩⟩

theorem hasSub_iff (nd : List Char) :
    ∀ cs, hasSub nd cs = true ↔ ∃ pre post, cs = pre ++ nd ++ post := by
  intro cs
  induction cs with
  | nil =>
    simp only [hasSub, List.isEmpty_iff]
    constructor
    · intro h
      exact ⟨[], [], by rw [h]; rfl⟩
    · rintro ⟨pre, post, hp⟩
      rcases List.append_eq_nil.mp (List.append_eq_nil.mp hp.symm).1 with ⟨_, h2⟩
      exact h2
  | cons c rest ih =>
    simp only [hasSub, Bool.or_eq_true]
    constructor
    · rintro (h | h)
      · obtain ⟨t, ht⟩ := (leadsWith_iff nd (c :: rest)).mp h
        exact ⟨[], t, by rw [List.nil_append]; exact ht.symm⟩
      · obtain ⟨pre, post, hp⟩ := ih.mp h
        exact ⟨c :: pre, post, by rw [hp]; rfl⟩
    · rintro ⟨pre, post, hp⟩
      cases pre with
      | nil =>
        left
        exact (leadsWith_iff nd (c :: rest)).mpr
          ⟨post, by rw [hp, List.nil_append]⟩
      | cons c2 pre2 =>
        right
        rw [List.cons_append, List.cons_append] at hp
        injection hp with h1 h2
        exact ih.mpr ⟨pre2, post, h2⟩

/-- Claim C10: the offer filter excludes exactly the offers whose retailer
name, lowercased, contains some entry of the exclusion list (shein, amazon,
ebay) as a substring; every other parsed offer is retained. -/
theorem C10_retailer_exclusion (results : List Offer) (o : Offer) :
    o ∈ filterExcluded results ↔
      o ∈ results ∧
        ¬ ∃ ex ∈ EXCLUDED_RETAILERS, ∃ pre post,
          (pyLower o.retailer).data = pre ++ ex.data ++ post := by
  have hb : isExcludedRetailer o.retailer = true ↔
      ∃ ex ∈ EXCLUDED_RETAILERS, ∃ pre post,
        (pyLower o.retailer).data = pre ++ ex.data ++ post := by
    unfold isExcludedRetailer
    rw [List.any_eq_true]
    constructor
    · rintro ⟨ex, hex, hsub⟩
      exact ⟨ex, hex, (hasSub_iff ex.data (pyLower o.retailer).data).mp hsub⟩
    · rintro ⟨ex, hex, hpp⟩
      exact ⟨ex, hex, (hasSub_iff ex.data (pyLower o.retailer).data).mpr hpp⟩
  simp only [filterExcluded, List.mem_filter, Bool.not_eq_true']
  constructor
  · rintro ⟨h1, h2⟩
    refine ⟨h1, fun hc => ?_⟩
    rw [hb.mpr hc] at h2
    cases h2
  · rintro ⟨h1, h2⟩
    refine ⟨h1, ?_⟩
    cases hbe : isExcludedRetailer o.retailer
    · rfl
    · exact absurd (hb.mp hbe) h2

/-- Witness for claim C10: a retailer containing no excluded entry is kept
by the filter, hence satisfies the exclusion-free characterization. -/
theorem C10_witness :
    (offerAt 50) ∈ [offerAt 50] ∧
      ¬ ∃ ex ∈ EXCLUDED_RETAILERS, ∃ pre post,
        (pyLower (offerAt 50).retailer).data = pre ++ ex.data ++ post :=
  (C10_retailer_exclusion [offerAt 50] (offerAt 50)).mp (by decide)

/-- Claim C9, counterexample: a row whose active flag is truthy, whose name
is nonempty, and whose only problematic cell is a present, nonempty,
unparsable Target Price Min is dropped entirely by the loader, although its
other two numeric cells take their defaults — so an unparsable numeric
field is not defaulted, and a row can be dropped even though not all of its
numeric fields fail to parse. -/
theorem C9_counterexample :
    loadProducts [rowBad] = [] ∧
      numField rowBad.target_price_max 999999 = some 999999 ∧
      numField rowBad.drop_alert_pct 25 = some 25 := by
  refine ⟨?_, rfl, rfl⟩
  decide

/-- Claim C9 (amended): the loader keeps exactly the rows whose active flag,
stripped and uppercased, is one of TRUE, YES, 1, Y, whose stripped name is
nonempty, and whose three numeric cells each parse (a numeric cell parses
when it is absent or empty, taking the defaults 0, 999999, 25, or when its
content is a float literal); a row with any present, nonempty, unparsable
numeric cell is dropped entirely, and the kept product carries the parsed
or defaulted numeric values and the stripped name. -/
theorem C9_row_filter (row : Row) :
    ((processRow row).isSome ↔
      (pyUpper (pyStrip (cellOrEmpty row.active)) ∈ TRUTHY ∧
        pyStrip (cellOrEmpty row.product_name) ≠ "" ∧
        (numField row.target_price_min 0).isSome ∧
        (numField row.target_price_max 999999).isSome ∧
        (numField row.drop_alert_pct 25).isSome)) ∧
    (∀ p, processRow row = some p →
      numField row.target_price_min 0 = some p.price_min ∧
      numField row.target_price_max 999999 = some p.price_max ∧
      numField row.drop_alert_pct 25 = some p.drop_threshold ∧
      p.name = pyStrip (cellOrEmpty row.product_name)) ∧
    (∀ (c : Option String) (d : ℚ), (c = none ∨ c = some "") →
      numField c d = some d) := by
  refine ⟨?_, ?_, ?_⟩
  · by_cases hact : pyUpper (pyStrip (cellOrEmpty row.active)) ∈ TRUTHY
    · rcases hm1 : numField row.target_price_min 0 with _ | pmin <;>
        rcases hm2 : numField row.target_price_max 999999 with _ | pmax <;>
          rcases hm3 : numField row.drop_alert_pct 25 with _ | dthr <;>
            by_cases hname : pyStrip (cellOrEmpty row.product_name) = "" <;>
              simp [processRow, hact, hm1, hm2, hm3, hname]
    · simp [processRow, hact]
  · intro p hp
    by_cases hact : pyUpper (pyStrip (cellOrEmpty row.active)) ∈ TRUTHY
    · rcases hm1 : numField row.target_price_min 0 with _ | pmin <;>
        rcases hm2 : numField row.target_price_max 999999 with _ | pmax <;>
          rcases hm3 : numField row.drop_alert_pct 25 with _ | dthr <;>
            by_cases hname : pyStrip (cellOrEmpty row.product_name) = "" <;>
              simp_all [processRow]
      cases hp
      simp
    · simp_all [processRow]
  · rintro c d (hc | hc) <;> subst hc
    · rfl
    · simp [numField]

/-- Witness for the amended claim C9 on a concrete kept row whose maximum
cell is empty, hence defaulted. -/
theorem C9_witness :
    (processRow rowGood).isSome ∧
      numField rowGood.target_price_max 999999 = some 999999 :=
  ⟨(C9_row_filter rowGood).1.mpr
      ⟨by decide, by decide, by decide, by decide, by decide⟩,
    (C9_row_filter rowGood).2.2 rowGood.target_price_max 999999
      (Or.inr rfl)⟩
